import Mathlib

/-!
Verification of the ocha mail client core against its specification.

The definitions below are shallow embeddings of the TypeScript sources:

* `FooterDetector`: `findFooterStart`, `hasFooter`, `mainBody`,
  `needsTruncation` from `src/components/Chat/MessageItem.tsx`
  (the variant whose detector scans lines top-to-bottom).
* Group selection / unread bookkeeping: `selectGroup` from
  `src/hooks/useGroups.ts`, the unread-counts map updates.
* The sync/refresh logic of `src/components/Layout/AppLayout.tsx`
  (`refreshAll`, the polling effect, the auth-error dialog).
* The split guard of `src/components/Group/GroupEditModal.tsx`.
* The per-group message view `messagesByGroupAtom` of
  `src/atoms/messagesAtom.ts`.

Strings are modelled as Lean `String` and positions/lengths as code-point
counts; the JavaScript sources count UTF-16 code units, and the two agree on
all texts without astral-plane characters (every literal in this file is in
that fragment).
-/

namespace Ocha

/-! ### FooterDetector (MessageItem.tsx) -/

/-- Characters matched by the JavaScript regex class `\s` (no `u` flag). -/
def isJsSpace (c : Char) : Bool :=
  let n := c.toNat
  n = 32 || n = 9 || n = 10 || n = 11 || n = 12 || n = 13 ||
  n = 0xa0 || n = 0x1680 || (0x2000 ≤ n && n ≤ 0x200a) ||
  n = 0x2028 || n = 0x2029 || n = 0x202f || n = 0x205f ||
  n = 0x3000 || n = 0xfeff

/-- Characters of the regex class `[_\-=]` used by the separator-line rule. -/
def isMarkerChar (c : Char) : Bool :=
  c = '_' || c = '-' || c = '='

/-- Test for `/^--\s*$/`: the line is `--` followed only by whitespace. -/
def isSigDelim (line : String) : Bool :=
  match line.data with
  | '-' :: '-' :: rest => rest.all isJsSpace
  | _ => false

/-- Test for `/^[_\-=]{3,}\s*$/`: at least three separator characters and then
only whitespace.  Separator characters and `\s` are disjoint, so the greedy
regex accepts exactly the lines of shape `marker-run ++ whitespace-run`. -/
def isRuleLine (line : String) : Bool :=
  let l := line.data
  3 ≤ (l.takeWhile isMarkerChar).length && (l.dropWhile isMarkerChar).all isJsSpace

/-- ASCII lower-casing, the case folding the `i` regex flag performs on an
all-ASCII pattern (non-ASCII characters never canonicalize to ASCII ones
without the `u` flag). -/
def asciiLower (c : Char) : Char :=
  if 65 ≤ c.toNat && c.toNat ≤ 90 then Char.ofNat (c.toNat + 32) else c

/-- ASCII-case-insensitive test that `pat` starts the line. -/
def startsWithCI (line pat : String) : Bool :=
  (line.data.take pat.data.length).map asciiLower = pat.data.map asciiLower

/-- Plain test that `pat` starts the line. -/
def strStartsWith (line pat : String) : Bool :=
  line.data.take pat.data.length = pat.data

/-- Test for `/^Sent from my /i` or `/^iPhoneから送信/`. -/
def isMobileSig (line : String) : Bool :=
  startsWithCI line "Sent from my " || strStartsWith line "iPhoneから送信"

/-- Test for `line.startsWith('>')`. -/
def isQuoteLine (line : String) : Bool :=
  strStartsWith line ">"

/-- One iteration of the scanning loop of `findFooterStart`: does this line
match any of the four implemented pattern groups?  (All four branches of the
source loop return the same value, so their order is immaterial.) -/
def lineMatches (line : String) : Bool :=
  isSigDelim line || isRuleLine line || isMobileSig line || isQuoteLine line

/-- Helper for `text.split('\n')` with JavaScript semantics (an empty string
yields `[""]`, a trailing newline yields a trailing empty line). -/
def splitLinesAux : List Char → List Char → List String
  | [], cur => [⟨cur.reverse⟩]
  | c :: cs, cur =>
    if c = '\n' then ⟨cur.reverse⟩ :: splitLinesAux cs []
    else splitLinesAux cs (c :: cur)

/-- The `text.split('\n')` of `findFooterStart`. -/
def splitLines (s : String) : List String :=
  splitLinesAux s.data []

/-- Tail of the scanning loop: `acc` is `lines.slice(0, i).join('\n').length`
for the current index `i ≥ 1`. -/
def findFooterAux : List String → Nat → Int
  | [], _ => -1
  | l :: ls, acc => if lineMatches l then (acc : Int) else findFooterAux ls (acc + l.length + 1)

/-- The scanning loop over the line list (index 0 contributes the offset 0,
`lines.slice(0, 0).join('\n').length`). -/
def findFooterLines : List String → Int
  | [] => -1
  | l :: ls => if lineMatches l then 0 else findFooterAux ls l.length

/-- `findFooterStart` of `MessageItem.tsx`: scan lines top-to-bottom and
return `lines.slice(0, i).join('\n').length` for the first matching line, or
`-1` when no line matches. -/
def findFooterStart (text : String) : Int :=
  findFooterLines (splitLines text)

/-- JavaScript `String.prototype.trim` (strips `\s` from both ends). -/
def jsTrim (s : String) : String :=
  ⟨((s.data.dropWhile isJsSpace).reverse.dropWhile isJsSpace).reverse⟩

/-- JavaScript `s.slice(0, n)` for `0 ≤ n`. -/
def strTake (s : String) (n : Nat) : String :=
  ⟨s.data.take n⟩

/-- The guard `hasFooter = footerStart !== -1 && footerStart > 0` of
`MessageItem.tsx`. -/
def hasFooter (body : String) : Bool :=
  let fs := findFooterStart body
  (fs != -1) && decide (0 < fs)

/-- The main content `mainBody = hasFooter ? fullBody.slice(0, footerStart).trim() : fullBody`. -/
def mainBody (body : String) : String :=
  if hasFooter body then jsTrim (strTake body (findFooterStart body).toNat) else body

/-- The UI truncation threshold `MAX_LENGTH`. -/
def MAX_LENGTH : Nat := 500

/-- The expand-affordance test `needsTruncation = mainBody.length > MAX_LENGTH || hasFooter`. -/
def needsTruncation (body : String) : Bool :=
  decide (MAX_LENGTH < (mainBody body).length) || hasFooter body

/-! ### Sync / refresh logic of `AppLayout.tsx`

The relevant pieces of component state: `syncingAtom` (read by the polling
guard; `AppLayout.tsx` itself never writes it), the `isAuthError` flag backing
the forced-logout dialog, the dismissible `syncError` banner text, and the
number of `refreshAll` runs currently awaiting their `syncMessages` fetch
(`inFlight` — the code keeps no such counter, which is exactly why several
fetches can overlap; the model counts them so that overlap is observable). -/

structure AppState where
  isSyncing : Bool
  isAuthError : Bool
  syncError : Option String
  inFlight : Nat
deriving DecidableEq

/-- A sync trigger reaching `AppLayout`. -/
inductive SyncTrigger
  | manual
  | periodicTick
  | pushNewMessages
deriving DecidableEq

/-- How one `syncMessages` fetch resolves. -/
inductive SyncResult
  | success
  | authRequired
  | transient (msg : String)
deriving DecidableEq

/-- Entry of `refreshAll`: clear the error banner and start the awaited
`syncMessages` fetch. -/
def startRefreshAll (s : AppState) : AppState :=
  { s with syncError := none, inFlight := s.inFlight + 1 }

/-- Dispatch of one trigger, following `AppLayout.tsx`:
the sidebar refresh button invokes `refreshAll` unconditionally; the polling
interval runs `refreshAll` only under `if (!isSyncing)`; the `new-messages`
push event (in `useMessages.ts`) only re-reads the open group from the local
database and never starts a `syncMessages` fetch. -/
def trigger (s : AppState) : SyncTrigger → AppState
  | .manual => startRefreshAll s
  | .periodicTick => if s.isSyncing then s else startRefreshAll s
  | .pushNewMessages => s

/-- Resolution of one awaited `refreshAll` fetch: the `catch` branch sets
`isAuthError` when the error text contains `AUTH_REQUIRED` and otherwise
stores the message in the `syncError` banner. -/
def completeRefreshAll (s : AppState) : SyncResult → AppState
  | .success => { s with inFlight := s.inFlight - 1 }
  | .authRequired => { s with inFlight := s.inFlight - 1, isAuthError := true }
  | .transient m => { s with inFlight := s.inFlight - 1, syncError := some m }

/-- `handleAuthErrorConfirm`: dismiss the dialog (and then log out via the
auth collaborator, which does not touch this state). -/
def handleAuthErrorConfirm (s : AppState) : AppState :=
  { s with isAuthError := false }

/-! ### Group selection (`useGroups.ts`) and the frontend stores -/

/-- The jotai atoms touched (or explicitly left untouched) by `selectGroup`:
the group list is reduced to its ids, messages to their ids — `selectGroup`
inspects neither. -/
structure Store where
  groups : List Nat
  messages : List Nat
  unreadCounts : List (Nat × Int)
  selectedGroupId : Option Nat
deriving DecidableEq

/-- Modelled from the spec: the mail-backend `markGroupRead` collaborator
call is not part of the frontend sources; section 7 of the spec requires
`NotFound` (a deleted group) "be tolerated as a no-op", so the call returns
without error for every group id and touches no frontend atom. -/
def tauriMarkGroupAsRead (_groupId : Nat) : Except String Unit :=
  Except.ok ()

/-- `selectGroup` of `useGroups.ts`: store the selected id, then (for a
non-null id) await the backend mark-read call and delete the group's entry
from the unread-counts map. -/
def selectGroup (s : Store) (g : Option Nat) : Except String Store :=
  let s1 := { s with selectedGroupId := g }
  match g with
  | none => Except.ok s1
  | some gid =>
    match tauriMarkGroupAsRead gid with
    | Except.error e => Except.error e
    | Except.ok _ =>
      Except.ok { s1 with unreadCounts := s1.unreadCounts.filter (fun p => p.1 != gid) }

/-- The derived `selectedGroupAtom`: `groups.find((g) => g.id === id) ?? null`. -/
def selectedGroup (s : Store) : Option Nat :=
  match s.selectedGroupId with
  | none => none
  | some id => if id ∈ s.groups then some id else none

/-! ### Unread-count bookkeeping (`useGroups.ts`, `Sidebar.tsx`) -/

/-- The updater `setUnreadCounts` runs on group selection: `delete next[groupId]`. -/
def applyMarkGroupAsRead (counts : List (Nat × Int)) (g : Nat) : List (Nat × Int) :=
  counts.filter (fun p => p.1 != g)

/-- The read side `unreadCounts[group.id] || 0` used by `Sidebar.tsx` when it
hands the count to `GroupItem`/`UnreadBadge`. -/
def unreadCountOf (counts : List (Nat × Int)) (g : Nat) : Int :=
  match counts.find? (fun p => p.1 == g) with
  | some p => p.2
  | none => 0

/-! ### The split guard (`GroupEditModal.tsx`) -/

/-- Whether `handleSplit` reaches the backend `splitGroup` invocation, and
with which arguments. -/
inductive SplitOutcome
  | noCall
  | call (sourceId : Nat) (emails : List String) (name : String)
deriving DecidableEq

/-- `handleSplit` of `GroupEditModal.tsx` up to its backend call: the early
return on `!group || selectedEmails.size === 0 || !newGroupName.trim()`, the
`cannotSplitAll` alert when every member is selected, then the
`window.confirm` gate.  `selected` is the `selectedEmails` set (insertion
order, no duplicates). -/
def handleSplit (group : Option Nat) (members selected : List String)
    (newGroupName : String) (confirmed : Bool) : SplitOutcome :=
  match group with
  | none => .noCall
  | some gid =>
    if selected.length = 0 ∨ jsTrim newGroupName = "" then .noCall
    else if selected.length = members.length then .noCall
    else if confirmed then .call gid selected newGroupName
    else .noCall

/-- The `canSplit` flag (line 146) gating the split button. -/
def canSplit (members selected : List String) (newGroupName : String) : Bool :=
  decide (0 < selected.length) && decide (selected.length < members.length) &&
    !(jsTrim newGroupName == "")

/-- Interpretation of an outcome against any backend semantics `apply`:
`noCall` leaves every state alone, `call` hands the state to the backend. -/
def splitDispatch {σ : Type} (apply : Nat → List String → String → σ → σ)
    (st : σ) : SplitOutcome → σ
  | .noCall => st
  | .call g e n => apply g e n st

/-! ### Per-group message view (`messagesByGroupAtom`) -/

/-- A message, reduced to the fields `messagesByGroupAtom` inspects;
`receivedAt` stands for `new Date(m.receivedAt).getTime()`. -/
structure Msg where
  id : Nat
  groupId : Nat
  receivedAt : Nat
deriving DecidableEq

/-- The sort comparator `(a, b) => new Date(a.receivedAt) - new Date(b.receivedAt)`
(ascending; `Array.prototype.sort` is stable, as is `mergeSort`). -/
def byReceivedAt (a b : Msg) : Bool :=
  decide (a.receivedAt ≤ b.receivedAt)

/-- Bucket `g` of `messagesByGroupAtom`: push each message into the bucket of
its own `groupId` (which preserves relative order, i.e. filters), then sort
the bucket by `receivedAt`. -/
def messagesByGroup (msgs : List Msg) (g : Nat) : List Msg :=
  (msgs.filter (fun m => m.groupId == g)).mergeSort byReceivedAt

/-! ## Claims -/

/-- C1 (counterexample): the claim "every trigger arriving while a sync is
already running starts no second fetch" fails at a concrete input: with one
`refreshAll` fetch in flight (and even with the `syncingAtom` flag set), a
click of the sidebar refresh button starts a second concurrent fetch, because
`onRefresh` invokes `refreshAll` with no guard. -/
theorem c1_manual_refresh_second_fetch :
    (AppState.mk true false none 1).inFlight = 1 ∧
    (trigger (AppState.mk true false none 1) SyncTrigger.manual).inFlight = 2 :=
  ⟨rfl, rfl⟩

/-- C1 (amended): only the periodic timer tick is coalesced — while the
`syncingAtom` flag is set, a periodic tick is dropped entirely (no fetch, no
state change) and a push notification starts no sync fetch either, but a
manual refresh always starts one more fetch immediately. -/
theorem c1_coalescing_periodic_only :
    ∀ s : AppState, s.isSyncing = true →
      trigger s SyncTrigger.periodicTick = s ∧
      (trigger s SyncTrigger.pushNewMessages).inFlight = s.inFlight ∧
      (trigger s SyncTrigger.manual).inFlight = s.inFlight + 1 := by
  intro s h
  refine ⟨?_, rfl, rfl⟩
  simp [trigger, h]

/-- C1 (witness): the amended statement at a concrete syncing state. -/
theorem c1_coalescing_periodic_only_witness :
    trigger (AppState.mk true false none 1) SyncTrigger.periodicTick =
      AppState.mk true false none 1 :=
  (c1_coalescing_periodic_only (AppState.mk true false none 1) rfl).1

/-- C2 (counterexample): the claim that the auth-failed state is terminal for
automatic triggers fails at a concrete input: after a sync completes with
`AUTH_REQUIRED` (setting `isAuthError`), the very next periodic tick starts a
fetch again, because the polling guard checks only `isSyncing`. -/
theorem c2_periodic_fetch_after_auth_failure :
    (completeRefreshAll (AppState.mk false false none 1) SyncResult.authRequired).isAuthError
      = true ∧
    (trigger (completeRefreshAll (AppState.mk false false none 1) SyncResult.authRequired)
        SyncTrigger.periodicTick).inFlight = 1 :=
  ⟨rfl, rfl⟩

/-- C2 (amended): an `AUTH_REQUIRED` sync failure sets the `isAuthError`
flag (opening the forced-logout dialog), and the flag is cleared by the
dialog's confirm handler (which then logs out); but the flag does not gate
automatic syncing — whenever `isSyncing` is false, a periodic tick starts a
fetch, auth-failed or not. -/
theorem c2_auth_error_not_terminal :
    ∀ s : AppState,
      (completeRefreshAll s SyncResult.authRequired).isAuthError = true ∧
      (handleAuthErrorConfirm s).isAuthError = false ∧
      (s.isSyncing = false →
        (trigger s SyncTrigger.periodicTick).inFlight = s.inFlight + 1) := by
  intro s
  refine ⟨rfl, rfl, ?_⟩
  intro h
  simp [trigger, h, startRefreshAll]

/-- C2 (witness): the amended statement at a concrete auth-failed state. -/
theorem c2_auth_error_not_terminal_witness :
    (trigger (AppState.mk false true none 0) SyncTrigger.periodicTick).inFlight = 0 + 1 :=
  (c2_auth_error_not_terminal (AppState.mk false true none 0)).2.2 rfl

/-- C5: the footer detector returns offset 5 (the position right before the
`--` line, i.e. the length of `"Hello"`) on `"Hello\n--\nJohn Doe"`, and
`-1` ("none found") on `"Hello world"`. -/
theorem c5_footer_detector_examples :
    findFooterStart "Hello\n--\nJohn Doe" = 5 ∧
    findFooterStart "Hello world" = -1 := by
  constructor <;> decide

/-- C6: a body whose first line is the exact signature delimiter `--` is not
treated as footer-only: the detector returns 0, the `footerStart > 0` guard
then reports no footer, and the displayed main content is the entire body. -/
theorem c6_first_line_delimiter_no_footer :
    ∀ (body : String) (ls : List String),
      splitLines body = "--" :: ls →
      findFooterStart body = 0 ∧ hasFooter body = false ∧ mainBody body = body := by
  intro body ls h
  have hm : lineMatches "--" = true := by decide
  have h0 : findFooterStart body = 0 := by
    unfold findFooterStart
    rw [h]
    simp [findFooterLines, hm]
  have hf : hasFooter body = false := by
    unfold hasFooter
    rw [h0]
    rfl
  exact ⟨h0, hf, by unfold mainBody; rw [hf]; rfl⟩

/-- C6 (witness): the statement at the concrete body `"--\nJohn Doe"`. -/
theorem c6_first_line_delimiter_no_footer_witness :
    findFooterStart "--\nJohn Doe" = 0 ∧ hasFooter "--\nJohn Doe" = false ∧
      mainBody "--\nJohn Doe" = "--\nJohn Doe" :=
  c6_first_line_delimiter_no_footer "--\nJohn Doe" ["John Doe"] (by decide)

/-- Helper: the scanning loop returns -1 when no remaining line matches. -/
theorem findFooterAux_eq_neg_one :
    ∀ (ls : List String) (acc : Nat),
      (∀ l ∈ ls, lineMatches l = false) → findFooterAux ls acc = -1 := by
  intro ls
  induction ls with
  | nil => intro acc _; rfl
  | cons l ls ih =>
    intro acc h
    unfold findFooterAux
    rw [h l (List.mem_cons_self l ls)]
    exact ih _ fun x hx => h x (List.mem_cons_of_mem l hx)

/-- C7 (counterexample): the claim that a locale-specific quoted-header
introduction line ("On <date> … wrote:") is detected as pattern class 4
fails at a concrete input: the implemented scan has no such pattern class,
so the detector answers "none found" (`-1`) instead of the offset 2 right
before that line. -/
theorem c7_quoted_header_not_detected :
    findFooterStart "Hi\nOn Mon, Jan 1, 2024 at 9:00 AM Alice wrote:" = -1 ∧
    findFooterStart "Hi\n2024年1月1日 差出人: Alice" = -1 := by
  constructor <;> decide

/-- C7 (amended): the implemented detector has no quoted-header pattern
class — its classes are exactly the signature delimiter, separator runs,
mobile-signature phrases and `>`-quoted lines — so a body none of whose
lines matches these (in particular one whose only candidate is an
"On <date> … wrote:" or "<date> 差出人:" line) yields "none found". -/
theorem c7_no_quoted_header_pattern_class :
    ∀ body : String,
      (∀ l ∈ splitLines body, lineMatches l = false) →
      findFooterStart body = -1 := by
  intro body h
  unfold findFooterStart
  cases hsp : splitLines body with
  | nil => rfl
  | cons l ls =>
    have hl : lineMatches l = false := h l (hsp ▸ List.mem_cons_self l ls)
    simp only [findFooterLines, hl, Bool.false_eq_true, if_false]
    exact findFooterAux_eq_neg_one ls l.length
      fun x hx => h x (hsp ▸ List.mem_cons_of_mem l hx)

/-- C7 (witness): the amended statement at the concrete quoted-header body. -/
theorem c7_no_quoted_header_pattern_class_witness :
    findFooterStart "Hi\nOn Mon, Jan 1, 2024 at 9:00 AM Alice wrote:" = -1 :=
  c7_no_quoted_header_pattern_class "Hi\nOn Mon, Jan 1, 2024 at 9:00 AM Alice wrote:"
    (by decide)

/-- C9: the expand affordance is offered iff the footer-stripped main content
exceeds the 500-character threshold OR a footer was detected; with no footer
the length test runs on the entire body, and a detected footer alone already
offers the affordance. -/
theorem c9_expand_affordance_or :
    ∀ body : String,
      (needsTruncation body = true ↔
        (MAX_LENGTH < (mainBody body).length ∨ hasFooter body = true)) ∧
      (hasFooter body = false → mainBody body = body) ∧
      (hasFooter body = true → needsTruncation body = true) := by
  intro body
  refine ⟨?_, ?_, ?_⟩
  · simp [needsTruncation]
  · intro h; simp [mainBody, h]
  · intro h; simp [needsTruncation, h]

/-- C9 (witness): a detected footer alone offers the affordance at a
concrete short body. -/
theorem c9_expand_affordance_or_witness :
    needsTruncation "Hello\n--\nsig" = true :=
  (c9_expand_affordance_or "Hello\n--\nsig").2.2 (by decide)

/-- C3 (counterexample): the claim that selecting an absent group "leaves the
stores unchanged" fails at a concrete input: `selectGroup` stores the given
id into `selectedGroupIdAtom` unconditionally, so with no group 5 in an empty
store the call returns a state different from the input. -/
theorem c3_selected_id_still_written :
    selectGroup (Store.mk [] [] [] none) (some 5) ≠
      Except.ok (Store.mk [] [] [] none) := by
  intro h
  have h1 : selectGroup (Store.mk [] [] [] none) (some 5) =
      Except.ok (Store.mk [] [] [] (some 5)) := rfl
  rw [h1] at h
  simp at h

/-- C3 (amended): selecting an absent group id raises no error and is a
no-op on the group, message and unread stores (up to dropping a stale unread
entry keyed by that very id); the raw selected-id field is set to the absent
id, but the derived selected group resolves to none, so no group is
effectively selected. -/
theorem c3_select_absent_group_safe :
    ∀ (s : Store) (gid : Nat), gid ∉ s.groups →
      ∃ t : Store, selectGroup s (some gid) = Except.ok t ∧
        t.groups = s.groups ∧ t.messages = s.messages ∧
        t.unreadCounts = s.unreadCounts.filter (fun p => p.1 != gid) ∧
        t.selectedGroupId = some gid ∧
        selectedGroup t = none := by
  intro s gid h
  refine ⟨_, rfl, rfl, rfl, rfl, rfl, ?_⟩
  simp [selectedGroup, h]

/-- C3 (witness): the amended statement on a concrete store without group 5
(but with a stale unread entry for it). -/
theorem c3_select_absent_group_safe_witness :
    ∃ t : Store, selectGroup (Store.mk [1] [10] [(5, 2), (1, 1)] none) (some 5) = Except.ok t ∧
      t.groups = (Store.mk [1] [10] [(5, 2), (1, 1)] none).groups ∧
      t.messages = (Store.mk [1] [10] [(5, 2), (1, 1)] none).messages ∧
      t.unreadCounts =
        (Store.mk [1] [10] [(5, 2), (1, 1)] none).unreadCounts.filter (fun p => p.1 != 5) ∧
      t.selectedGroupId = some 5 ∧
      selectedGroup t = none :=
  c3_select_absent_group_safe (Store.mk [1] [10] [(5, 2), (1, 1)] none) 5 (by decide)

/-- C4: a split with an empty selection, or with a selection covering every
member of the source, never reaches the backend `splitGroup` call (the
`canSplit` button gate is false as well), so under any backend semantics the
stores are left unchanged. -/
theorem c4_split_guard_rejects_empty_or_all :
    ∀ (gid : Nat) (members selected : List String) (name : String) (confirmed : Bool),
      members.Nodup → selected.Nodup → (∀ e ∈ selected, e ∈ members) →
      (selected = [] ∨ ∀ e ∈ members, e ∈ selected) →
      handleSplit (some gid) members selected name confirmed = SplitOutcome.noCall ∧
      canSplit members selected name = false ∧
      ∀ {σ : Type} (apply : Nat → List String → String → σ → σ) (st : σ),
        splitDispatch apply st (handleSplit (some gid) members selected name confirmed) = st := by
  intro gid members selected name confirmed hmnd hsnd hsub hcase
  have key : selected.length = 0 ∨ selected.length = members.length := by
    rcases hcase with h0 | hcov
    · exact Or.inl (by simp [h0])
    · refine Or.inr ?_
      have hfin : selected.toFinset = members.toFinset := by
        ext a
        simp only [List.mem_toFinset]
        exact ⟨fun ha => hsub a ha, fun ha => hcov a ha⟩
      rw [← List.toFinset_card_of_nodup hsnd, ← List.toFinset_card_of_nodup hmnd, hfin]
  have hnc : handleSplit (some gid) members selected name confirmed = SplitOutcome.noCall := by
    rcases key with h0 | heq
    · simp [handleSplit, h0]
    · unfold handleSplit
      dsimp only
      by_cases hg : selected.length = 0 ∨ jsTrim name = ""
      · rw [if_pos hg]
      · rw [if_neg hg, if_pos heq]
  refine ⟨hnc, ?_, ?_⟩
  · rcases key with h0 | heq
    · simp [canSplit, h0]
    · simp [canSplit, heq]
  · intro σ apply st
    rw [hnc]
    rfl

/-- C4 (witness): the guard on a concrete all-members selection. -/
theorem c4_split_guard_rejects_empty_or_all_witness :
    handleSplit (some 5) ["a", "b", "c"] ["a", "b", "c"] "New" true = SplitOutcome.noCall ∧
    canSplit ["a", "b", "c"] ["a", "b", "c"] "New" = false :=
  ⟨(c4_split_guard_rejects_empty_or_all 5 ["a", "b", "c"] ["a", "b", "c"] "New" true
      (by decide) (by decide) (by decide) (Or.inr (by decide))).1,
   (c4_split_guard_rejects_empty_or_all 5 ["a", "b", "c"] ["a", "b", "c"] "New" true
      (by decide) (by decide) (by decide) (Or.inr (by decide))).2.1⟩

/-- C8: marking a whole group read (the unread-map update run on group
selection) zeroes that group's readable count, is idempotent, and — given
the backend delivers non-negative counts — never yields a negative count for
any group. -/
theorem c8_mark_group_read_idempotent_nonneg :
    ∀ (counts : List (Nat × Int)) (g : Nat),
      (∀ p ∈ counts, 0 ≤ p.2) →
      unreadCountOf (applyMarkGroupAsRead counts g) g = 0 ∧
      applyMarkGroupAsRead (applyMarkGroupAsRead counts g) g = applyMarkGroupAsRead counts g ∧
      unreadCountOf (applyMarkGroupAsRead (applyMarkGroupAsRead counts g) g) g = 0 ∧
      ∀ h : Nat, 0 ≤ unreadCountOf (applyMarkGroupAsRead counts g) h := by
  intro counts g hpos
  have hnone : (applyMarkGroupAsRead counts g).find? (fun p => p.1 == g) = none := by
    rw [List.find?_eq_none]
    intro x hx
    have := (List.mem_filter.1 hx).2
    simpa using this
  have hzero : unreadCountOf (applyMarkGroupAsRead counts g) g = 0 := by
    unfold unreadCountOf
    rw [hnone]
  have hidem :
      applyMarkGroupAsRead (applyMarkGroupAsRead counts g) g = applyMarkGroupAsRead counts g := by
    unfold applyMarkGroupAsRead
    rw [List.filter_filter]
    simp
  refine ⟨hzero, hidem, by rw [hidem]; exact hzero, ?_⟩
  intro h
  unfold unreadCountOf
  cases hf : (applyMarkGroupAsRead counts g).find? (fun p => p.1 == h) with
  | none => exact le_refl 0
  | some p =>
    have hmem : p ∈ applyMarkGroupAsRead counts g := List.mem_of_find?_eq_some hf
    exact hpos p (List.mem_filter.1 hmem).1

/-- C8 (witness): the statement on a concrete unread map. -/
theorem c8_mark_group_read_idempotent_nonneg_witness :
    unreadCountOf (applyMarkGroupAsRead [(1, 3), (2, 0)] 1) 1 = 0 ∧
    0 ≤ unreadCountOf (applyMarkGroupAsRead [(1, 3), (2, 0)] 1) 2 :=
  ⟨(c8_mark_group_read_idempotent_nonneg [(1, 3), (2, 0)] 1 (by decide)).1,
   (c8_mark_group_read_idempotent_nonneg [(1, 3), (2, 0)] 1 (by decide)).2.2.2 2⟩

/-- C10: the derived per-group view partitions the message list by
`groupId` — a message lies in bucket `g` exactly when it is in the list and
`g` is its own `groupId`, each bucket is a permutation of the corresponding
filter (so multiplicities are preserved), and each bucket is sorted in
ascending `receivedAt` order. -/
theorem c10_messages_by_group_partition_sorted :
    ∀ (msgs : List Msg) (g : Nat),
      (∀ m : Msg, m ∈ messagesByGroup msgs g ↔ m ∈ msgs ∧ m.groupId = g) ∧
      List.Perm (messagesByGroup msgs g) (msgs.filter (fun m => m.groupId == g)) ∧
      (messagesByGroup msgs g).Pairwise (fun a b => a.receivedAt ≤ b.receivedAt) := by
  intro msgs g
  refine ⟨?_, List.mergeSort_perm _ _, ?_⟩
  · intro m
    simp [messagesByGroup, List.mem_mergeSort, List.mem_filter]
  · have htrans : ∀ a b c : Msg,
        byReceivedAt a b = true → byReceivedAt b c = true → byReceivedAt a c = true := by
      intro a b c hab hbc
      simp only [byReceivedAt, decide_eq_true_eq] at hab hbc ⊢
      exact le_trans hab hbc
    have htot : ∀ a b : Msg, (byReceivedAt a b || byReceivedAt b a) = true := by
      intro a b
      simp only [byReceivedAt, Bool.or_eq_true, decide_eq_true_eq]
      exact Nat.le_total a.receivedAt b.receivedAt
    have h := @List.sorted_mergeSort Msg byReceivedAt htrans htot
      (msgs.filter (fun m => m.groupId == g))
    exact h.imp fun hab => by simpa [byReceivedAt] using hab

end Ocha
